import Mathlib

/-!
# Heliostat firmware (`firmwear/src/main.cpp`): shallow embedding

The firmware keeps all of its state in global variables.  They are gathered in
the record `State`, and every function of the source becomes a pure function
`State → ... → State`.

Modelling conventions

* `unsigned long` (32 bits on the ESP32) timer values are natural numbers taken
  modulo `2 ^ 32`; the subtraction `now - last` is the wrapping one (`usub`).
* `long` / `int` values are integers.  Signed overflow is undefined behaviour in
  C++, so the model is meaningful while the counters stay inside the range of
  `long`.
* `float` and `double` values are rational numbers.  Every arithmetic operation
  of the source is followed by the IEEE-754 rounding of its result type
  (`toFloat`: binary32, `toDouble`: binary64, round to nearest, ties to even).
  The exponent range is taken unbounded: no overflow, subnormals, infinities or
  NaN.
* Reads of the outside world (`millis()`, `micros()`, `getLocalTime`) are the
  fields of `Env`; library code that is not part of the repository
  (the solar calculator, `String::toFloat`, `String::toInt`) is a field of
  `Platform`.
* Hardware output is recorded in the state: the level of the two direction
  pins, the number of pulses sent to each step pin, the arguments of the last
  `configTime`, and the list of status replies sent.
-/

namespace Helio

/-! ## Numbers -/

/-- Power of two with an integer exponent. -/
def pow2 (k : ℤ) : ℚ :=
  if 0 ≤ k then ((2 ^ k.toNat : ℕ) : ℚ) else 1 / ((2 ^ (-k).toNat : ℕ) : ℚ)

/-- Number of halvings needed to bring `n` below 2, with fuel. -/
def log2Fuel : ℕ → ℕ → ℕ
  | 0, _ => 0
  | fuel + 1, n => if 2 ≤ n then log2Fuel fuel (n / 2) + 1 else 0

/-- Floor of the binary logarithm of a natural number (0 at 0). -/
def natLog2 (n : ℕ) : ℕ := log2Fuel n n

/-- Binary exponent of a non-zero rational: the `e` with `2^e ≤ |x| < 2^(e+1)`. -/
def ilog2 (x : ℚ) : ℤ :=
  let a : ℤ := (natLog2 x.num.natAbs : ℤ) - (natLog2 x.den : ℤ)
  if pow2 a ≤ |x| then a else a - 1

/-- Nearest integer, ties to the even one. -/
def roundNearestEven (y : ℚ) : ℤ :=
  let f : ℤ := ⌊y⌋
  let r : ℚ := y - f
  if r < 1 / 2 then f
  else if 1 / 2 < r then f + 1
  else if f % 2 = 0 then f else f + 1

/-- Round to the nearest binary floating-point number with a `p`-bit
significand. -/
def roundToPrec (p : ℕ) (x : ℚ) : ℚ :=
  if x = 0 then 0
  else
    let q : ℚ := pow2 (ilog2 x - (p : ℤ) + 1)
    (roundNearestEven (x / q) : ℚ) * q

/-- Rounding to `float` (binary32). -/
def toFloat (x : ℚ) : ℚ := roundToPrec 24 x

/-- Rounding to `double` (binary64). -/
def toDouble (x : ℚ) : ℚ := roundToPrec 53 x

/-- The cast `(long)x` of a floating-point value: truncation toward zero. -/
def toLong (x : ℚ) : ℤ := if 0 ≤ x then ⌊x⌋ else ⌈x⌉

/-- Reading of a value as `unsigned long`. -/
def u32 (n : ℕ) : ℕ := n % 2 ^ 32

/-- Wrapping `unsigned long` subtraction `a - b`. -/
def usub (a b : ℕ) : ℕ := (u32 a + (2 ^ 32 - u32 b)) % 2 ^ 32

/-! ## Constants -/

def STEP_X : ℕ := 13
def DIR_X : ℕ := 12
def STEP_Y : ℕ := 18
def DIR_Y : ℕ := 17

/-- The macro `3200.0 * 144.0 / 17.0 / 360.0`, evaluated in `double`. -/
def DEFAULT_MICROSTEPS_PER_DEG_AZ : ℚ :=
  toDouble (toDouble (toDouble (3200 * 144) / 17) / 360)

/-- The macro `3200.0 * 64.0 / 21.0 / 360.0`, evaluated in `double`. -/
def DEFAULT_MICROSTEPS_PER_DEG_EL : ℚ :=
  toDouble (toDouble (toDouble (3200 * 64) / 21) / 360)

def TRACK_UPDATE_INTERVAL_MS : ℕ := 5000
def SUN_UPDATE_INTERVAL_MS : ℕ := 60000
def TRACK_STEP_INTERVAL_US : ℕ := 2000

/-- The double literal `48.21` stored in a `float`. -/
def defaultLat : ℚ := toFloat (toDouble (4821 / 100))

/-- The double literal `16.37` stored in a `float`. -/
def defaultLon : ℚ := toFloat (toDouble (1637 / 100))

/-! ## State -/

/-- The namespace "heliostat" of the `Preferences` store: one optional value
per key the firmware uses. -/
structure Prefs where
  setup : Option Bool
  lat : Option ℚ
  lon : Option ℚ
  gmt : Option ℤ
  dst : Option ℤ
  calAz : Option ℚ
  calEl : Option ℚ

/-- The content of one status reply (`sendStatus`), before its formatting as
JSON text. `time = none` is the text "unknown". -/
structure Status where
  client : ℕ
  tracking : Bool
  setupDone : Bool
  sunAz : ℚ
  sunEl : ℚ
  mirrorAz : ℚ
  mirrorEl : ℚ
  time : Option ℤ

/-- The global variables of the firmware, the persisted store and the record of
the hardware output. -/
structure State where
  microstepsPerDegAz : ℚ
  microstepsPerDegEl : ℚ
  prefs : Prefs
  configLat : ℚ
  configLon : ℚ
  configGmtOffsetSec : ℤ
  configDstOffsetSec : ℤ
  configSetupDone : Bool
  motorX_Running : Bool
  motorY_Running : Bool
  lastStepX : ℕ
  lastStepY : ℕ
  stepInterval : ℕ
  trackingActive : Bool
  currentAzDeg : ℚ
  currentElDeg : ℚ
  currentAzMicrosteps : ℤ
  currentElMicrosteps : ℤ
  lastTrackUpdate : ℕ
  lastSunUpdate : ℕ
  lastTrackStep : ℕ
  targetSunAz : ℚ
  targetSunEl : ℚ
  dirX : Bool
  dirY : Bool
  pulsesX : ℕ
  pulsesY : ℕ
  ntp : Option (ℤ × ℤ)
  sent : List Status

/-- What one call reads from the outside world: `millis()`, `micros()` and the
local time in seconds (`none` when `getLocalTime` fails). -/
structure Env where
  millis : ℕ
  micros : ℕ
  localTime : Option ℤ

/-- Library code outside the repository. -/
structure Platform where
  calcHorizontalCoordinates : ℕ → ℚ → ℚ → ℚ × ℚ
  strToFloat : List Char → ℚ
  strToInt : List Char → ℤ

/-- The store before anything was saved. -/
def emptyPrefs : Prefs :=
  { setup := none, lat := none, lon := none, gmt := none, dst := none,
    calAz := none, calEl := none }

/-- The initial values of the global variables. -/
def initialState (p : Prefs) : State :=
  { microstepsPerDegAz := toFloat DEFAULT_MICROSTEPS_PER_DEG_AZ
    microstepsPerDegEl := toFloat DEFAULT_MICROSTEPS_PER_DEG_EL
    prefs := p
    configLat := defaultLat
    configLon := defaultLon
    configGmtOffsetSec := 3600
    configDstOffsetSec := 3600
    configSetupDone := false
    motorX_Running := false
    motorY_Running := false
    lastStepX := 0
    lastStepY := 0
    stepInterval := 1000
    trackingActive := false
    currentAzDeg := 0
    currentElDeg := 0
    currentAzMicrosteps := 0
    currentElMicrosteps := 0
    lastTrackUpdate := 0
    lastSunUpdate := 0
    lastTrackStep := 0
    targetSunAz := 0
    targetSunEl := 0
    dirX := false
    dirY := false
    pulsesX := 0
    pulsesY := 0
    ntp := none
    sent := [] }

/-! ## Stepper functions -/

/-- The call `digitalWrite(pin, level)` on a direction pin. -/
def digitalWrite (pin : ℕ) (level : Bool) (s : State) : State :=
  if pin = DIR_X then { s with dirX := level }
  else if pin = DIR_Y then { s with dirY := level }
  else s

/-- One pulse on a step pin. -/
def stepMotor (pin : ℕ) (s : State) : State :=
  if pin = STEP_X then { s with pulsesX := s.pulsesX + 1 }
  else if pin = STEP_Y then { s with pulsesY := s.pulsesY + 1 }
  else s

/-- The continuous (manual jog) stepping, called on every loop iteration. -/
def updateSteppers (s : State) (e : Env) : State :=
  let now := u32 e.micros
  let s1 :=
    if s.motorX_Running = true ∧ s.stepInterval ≤ usub now s.lastStepX then
      stepMotor STEP_X { s with lastStepX := now }
    else s
  if s1.motorY_Running = true ∧ s1.stepInterval ≤ usub now s1.lastStepY then
    stepMotor STEP_Y { s1 with lastStepY := now }
  else s1

/-! ## Time and sun position -/

/-- The call `configTime(gmt, dst, server)`. -/
def initNTP (s : State) : State :=
  { s with ntp := some (s.configGmtOffsetSec, s.configDstOffsetSec) }

def getUtcTime (s : State) (e : Env) : ℤ :=
  match e.localTime with
  | none => 0
  | some t => t - s.configGmtOffsetSec - s.configDstOffsetSec

/-- The result is `none` when the source returns `false` (the two reference
arguments are then left as they were). -/
def getSunPosition (P : Platform) (s : State) (e : Env) : Option (ℚ × ℚ) :=
  let utc := getUtcTime s e
  if utc = 0 then none
  else some (P.calcHorizontalCoordinates (utc % 2 ^ 32).toNat s.configLat s.configLon)

/-! ## Tracking -/

/-- The conversion `(long)(deg * microstepsPerDeg)` of a `double` angle. -/
def degToMicrosteps (deg mpd : ℚ) : ℤ := toLong (toDouble (deg * mpd))

/-- The conversion `(float)microsteps / microstepsPerDeg`. -/
def microstepsToDeg (m : ℤ) (mpd : ℚ) : ℚ := toFloat (toFloat (m : ℚ) / mpd)

/-- The step decision of `updateTracking`: the part after the target refresh
(source lines 115-137). -/
def trackStep (s : State) (e : Env) : State :=
  let nowUs := u32 e.micros
  if usub nowUs s.lastTrackStep < TRACK_STEP_INTERVAL_US then s
  else
    let s0 := { s with lastTrackStep := nowUs }
    let targetAzMicrosteps := degToMicrosteps s0.targetSunAz s0.microstepsPerDegAz
    let targetElMicrosteps := degToMicrosteps s0.targetSunEl s0.microstepsPerDegEl
    let diffAz := targetAzMicrosteps - s0.currentAzMicrosteps
    let diffEl := targetElMicrosteps - s0.currentElMicrosteps
    let s1 :=
      if 2 < |diffAz| then
        let t := stepMotor STEP_X (digitalWrite DIR_X (decide (0 < diffAz)) s0)
        { t with currentAzMicrosteps :=
            t.currentAzMicrosteps + (if 0 < diffAz then 1 else -1) }
      else s0
    let s2 :=
      if 2 < |diffEl| then
        let t := stepMotor STEP_Y (digitalWrite DIR_Y (decide (0 < diffEl)) s1)
        { t with currentElMicrosteps :=
            t.currentElMicrosteps + (if 0 < diffEl then 1 else -1) }
      else s1
    { s2 with
      currentAzDeg := microstepsToDeg s2.currentAzMicrosteps s2.microstepsPerDegAz
      currentElDeg := microstepsToDeg s2.currentElMicrosteps s2.microstepsPerDegEl }

def updateTracking (P : Platform) (s : State) (e : Env) : State :=
  if s.trackingActive = false ∨ s.configSetupDone = false then s
  else
    let now := u32 e.millis
    if SUN_UPDATE_INTERVAL_MS ≤ usub now s.lastSunUpdate then
      let s1 := { s with lastSunUpdate := now }
      match getSunPosition P s1 e with
      | none => s1
      | some (az, el) =>
        let s2 := { s1 with targetSunAz := az, targetSunEl := el }
        if el < 0 then s2 else trackStep s2 e
    else trackStep s e

/-! ## Load / save config -/

def loadConfig (s : State) : State :=
  { s with
    configSetupDone := s.prefs.setup.getD false
    configLat := s.prefs.lat.getD defaultLat
    configLon := s.prefs.lon.getD defaultLon
    configGmtOffsetSec := s.prefs.gmt.getD 3600
    configDstOffsetSec := s.prefs.dst.getD 3600
    microstepsPerDegAz := s.prefs.calAz.getD (toFloat DEFAULT_MICROSTEPS_PER_DEG_AZ)
    microstepsPerDegEl := s.prefs.calEl.getD (toFloat DEFAULT_MICROSTEPS_PER_DEG_EL) }

def saveConfig (s : State) (lat lon : ℚ) (gmtSec dstSec : ℤ) : State :=
  { s with
    prefs :=
      { setup := some true
        lat := some lat
        lon := some lon
        gmt := some gmtSec
        dst := some dstSec
        calAz := some s.microstepsPerDegAz
        calEl := some s.microstepsPerDegEl }
    configLat := lat
    configLon := lon
    configGmtOffsetSec := gmtSec
    configDstOffsetSec := dstSec
    configSetupDone := true }

def resetSetup (s : State) : State :=
  { s with
    prefs := { s.prefs with setup := some false }
    configSetupDone := false }

/-! ## WebSocket handler -/

def sendStatus (P : Platform) (s : State) (e : Env) (num : ℕ) : State :=
  let sun := (getSunPosition P s e).getD (0, 0)
  { s with
    sent := s.sent ++
      [{ client := num
         tracking := s.trackingActive
         setupDone := s.configSetupDone
         sunAz := sun.1
         sunEl := sun.2
         mirrorAz := s.currentAzDeg
         mirrorEl := s.currentElDeg
         time := e.localTime }] }

/-- The comma character. -/
def comma : Char := Char.ofNat 44

/-- Arduino `String::indexOf(ch, fromIndex)`: the index of the first `ch` at or
after `fromIndex`, or `-1`. The parameter is an `unsigned int`, so the argument
`sep + 1` with `sep = -1` is `0`. -/
def indexOf (msg : List Char) (ch : Char) (fromIndex : ℤ) : ℤ :=
  let start := (fromIndex % 2 ^ 32).toNat
  if msg.length ≤ start then -1
  else
    let i := (msg.drop start).indexOf ch
    if i < (msg.drop start).length then ((start + i : ℕ) : ℤ) else -1

/-- Arduino `String::substring(left, right)`, both parameters `unsigned int`. -/
def substring (msg : List Char) (left right : ℤ) : List Char :=
  let l0 := (left % 2 ^ 32).toNat
  let r0 := (right % 2 ^ 32).toNat
  let l := min l0 r0
  let r := max l0 r0
  if msg.length ≤ l then []
  else (msg.take (min r msg.length)).drop l

/-- Arduino `String::substring(left)`: up to the end of the string. -/
def substringFrom (msg : List Char) (left : ℤ) : List Char :=
  substring msg left msg.length

/-- Arduino `String::startsWith`. -/
def startsWith (msg pre : List Char) : Bool := pre.isPrefixOf msg

/-- The kind of a WebSocket event; only text events are handled. -/
inductive WStype where
  | TEXT
  | OTHER
  deriving DecidableEq

def onWebSocketEvent (P : Platform) (s : State) (e : Env) (num : ℕ)
    (type : WStype) (msg : List Char) : State :=
  if type = WStype.TEXT then
    if msg = "X_fwd".toList then
      { digitalWrite DIR_X true s with motorX_Running := true }
    else if msg = "X_rev".toList then
      { digitalWrite DIR_X false s with motorX_Running := true }
    else if msg = "X_stop".toList then { s with motorX_Running := false }
    else if msg = "Y_fwd".toList then
      { digitalWrite DIR_Y true s with motorY_Running := true }
    else if msg = "Y_rev".toList then
      { digitalWrite DIR_Y false s with motorY_Running := true }
    else if msg = "Y_stop".toList then { s with motorY_Running := false }
    else if msg = "get_status".toList then sendStatus P s e num
    else if msg = "start_track".toList then
      sendStatus P { s with trackingActive := true, lastSunUpdate := 0 } e num
    else if msg = "stop_track".toList then
      sendStatus P
        { s with trackingActive := false, motorX_Running := false,
                 motorY_Running := false } e num
    else if startsWith msg "setup_complete:".toList = true then
      let sep1 := indexOf msg comma 15
      let sep2 := indexOf msg comma (sep1 + 1)
      let sep3 := indexOf msg comma (sep2 + 1)
      if 0 < sep1 ∧ 0 < sep2 ∧ 0 < sep3 then
        let lat := P.strToFloat (substring msg 15 sep1)
        let lon := P.strToFloat (substring msg (sep1 + 1) sep2)
        let gmtSec := P.strToInt (substring msg (sep2 + 1) sep3)
        let dstSec := P.strToInt (substringFrom msg (sep3 + 1))
        sendStatus P (initNTP (saveConfig s lat lon gmtSec dstSec)) e num
      else s
    else if msg = "reset_setup".toList then
      sendStatus P
        { resetSetup s with trackingActive := false, motorX_Running := false,
                            motorY_Running := false } e num
    else s
  else s

/-- One iteration of `loop()` after the servers were polled. -/
def loop (P : Platform) (s : State) (e : Env) : State :=
  let s1 := updateSteppers s e
  if s1.trackingActive = true ∧
      TRACK_UPDATE_INTERVAL_MS ≤ usub (u32 e.millis) s1.lastTrackUpdate then
    updateTracking P { s1 with lastTrackUpdate := u32 e.millis } e
  else s1

/-! ## Per-axis views -/

/-- The two axes of the mirror. -/
inductive Axis where
  | Azimuth
  | Elevation
  deriving DecidableEq

/-- The microstep counter of an axis. -/
def current (a : Axis) (s : State) : ℤ :=
  match a with
  | Axis.Azimuth => s.currentAzMicrosteps
  | Axis.Elevation => s.currentElMicrosteps

/-- The number of pulses sent so far to the step pin of an axis. -/
def pulses (a : Axis) (s : State) : ℕ :=
  match a with
  | Axis.Azimuth => s.pulsesX
  | Axis.Elevation => s.pulsesY

/-- The target microstep count of an axis, as the step decision computes it
from the tracking target held in the state (source lines 119-120). -/
def targetMicrosteps (a : Axis) (s : State) : ℤ :=
  match a with
  | Axis.Azimuth => degToMicrosteps s.targetSunAz s.microstepsPerDegAz
  | Axis.Elevation => degToMicrosteps s.targetSunEl s.microstepsPerDegEl

/-- The increment the step decision applies to a counter at difference `d`. -/
def stepTowards (d : ℤ) : ℤ := if 2 < |d| then (if 0 < d then 1 else -1) else 0

/-! ## Runs with a fixed target -/

/-- A call of updateTracking that reaches the step decision and leaves the
tracking target as it was: tracking is on, the setup is done, the step interval
has elapsed, and either no refresh is due or the refresh returns the target
already held, above the horizon. -/
def FixedTargetStep (P : Platform) (s : State) (e : Env) : Prop :=
  s.trackingActive = true ∧ s.configSetupDone = true ∧
  ¬ usub (u32 e.micros) s.lastTrackStep < TRACK_STEP_INTERVAL_US ∧
  (¬ SUN_UPDATE_INTERVAL_MS ≤ usub (u32 e.millis) s.lastSunUpdate ∨
    (getSunPosition P s e = some (s.targetSunAz, s.targetSunEl) ∧ ¬ s.targetSunEl < 0))

instance decFixedTargetStep (P : Platform) (s : State) (e : Env) :
    Decidable (FixedTargetStep P s e) :=
  show Decidable (_ ∧ _ ∧ _ ∧ (_ ∨ (_ ∧ _))) from inferInstance

/-- Successive calls of updateTracking, one per reading of the outside world. -/
def runTracking (P : Platform) : State → List Env → State
  | s, [] => s
  | s, e :: es => runTracking P (updateTracking P s e) es

/-- Every call of the run is a `FixedTargetStep` in the state it starts from. -/
def AllFixedTargetSteps (P : Platform) : State → List Env → Prop
  | _, [] => True
  | s, e :: es => FixedTargetStep P s e ∧ AllFixedTargetSteps P (updateTracking P s e) es

instance decAllFixedTargetSteps (P : Platform) :
    (s : State) → (es : List Env) → Decidable (AllFixedTargetSteps P s es)
  | _, [] => isTrue trivial
  | s, e :: es =>
    @instDecidableAnd _ _ (decFixedTargetStep P s e)
      (decAllFixedTargetSteps P (updateTracking P s e) es)

/-! ## Runs from boot -/

/-- The effect of `setup()` on the state: the globals take their initial
values, then `loadConfig()` and `initNTP()` run once (source lines 528-529). -/
def setup (p : Prefs) : State := initNTP (loadConfig (initialState p))

/-- What can happen after boot: a WebSocket event is handled, `updateSteppers`
is called, `updateTracking` is called, or a whole iteration of `loop()` runs. -/
inductive Event where
  | command (e : Env) (num : ℕ) (type : WStype) (msg : List Char)
  | tick (e : Env)
  | track (e : Env)
  | loopIter (e : Env)

/-- The state after one event. -/
def applyEvent (P : Platform) (s : State) : Event → State
  | Event.command e num type msg => onWebSocketEvent P s e num type msg
  | Event.tick e => updateSteppers s e
  | Event.track e => updateTracking P s e
  | Event.loopIter e => loop P s e

/-- The state after a sequence of events. -/
def runEvents (P : Platform) : State → List Event → State
  | s, [] => s
  | s, ev :: evs => runEvents P (applyEvent P s ev) evs

/-- The most recent status reply sent. -/
def lastReply (s : State) : Option Status := s.sent.getLast?

/-- The stored degree values are the ones the step decision derives from the
microstep counters (source lines 136-137). -/
def Synced (s : State) : Prop :=
  s.currentAzDeg = microstepsToDeg s.currentAzMicrosteps s.microstepsPerDegAz ∧
  s.currentElDeg = microstepsToDeg s.currentElMicrosteps s.microstepsPerDegEl

/-! ## Concrete scenarios -/

/-- A solar calculator that always reports the sun below the horizon. -/
def nightSky : Platform :=
  { calcHorizontalCoordinates := fun _ _ _ => (100, -10)
    strToFloat := fun _ => 0
    strToInt := fun _ => 0 }

/-- A solar calculator that always reports the sun above the horizon. -/
def daySky : Platform :=
  { calcHorizontalCoordinates := fun _ _ _ => (100, 30)
    strToFloat := fun _ => 0
    strToInt := fun _ => 0 }

/-- The state after boot with a finished setup and tracking switched on. -/
def trackingState : State :=
  { initialState emptyPrefs with trackingActive := true, configSetupDone := true }

/-- The state after boot with a finished setup. -/
def configuredState : State :=
  { initialState emptyPrefs with configSetupDone := true }

/-- Readings at a given number of milliseconds after boot, the clock synchronised. -/
def envAt (ms : ℕ) : Env :=
  { millis := ms, micros := 1000 * ms, localTime := some 1700000000 }

/-- Tracking towards azimuth 1 degree (75 microsteps) and elevation 10 degrees
(270 microsteps) from the counters 74 and 0. -/
def deadBandState : State :=
  { trackingState with targetSunAz := 1, targetSunEl := 10, currentAzMicrosteps := 74 }

/-- Tracking with the azimuth counter at 7528, one microstep short of the target
that a refresh to azimuth 100 degrees gives (7529), while the target held is
still (0, 0). -/
def refreshDeadBandState : State :=
  { trackingState with currentAzMicrosteps := 7528 }

/-- Tracking towards azimuth 1 degree (75 microsteps) from the counter 70, the
elevation target at -10 degrees (-270 microsteps). -/
def approachState : State :=
  { trackingState with targetSunAz := 1, targetSunEl := -10, currentAzMicrosteps := 70 }

/-- Tracking towards azimuth 1 degree with 2.75 microsteps per degree, from the
counter 0. -/
def truncState : State :=
  { trackingState with targetSunAz := 1, microstepsPerDegAz := 11 / 4 }

/-- The scenario of the specification: 270.6 microsteps per degree of azimuth
(as a `float`), target azimuth 45 degrees, azimuth counter 12000. -/
def scenarioState : State :=
  { trackingState with
    microstepsPerDegAz := toFloat (toDouble (2706 / 10))
    targetSunAz := 45
    currentAzMicrosteps := 12000 }

/-- A session after boot with an empty store: the setup is completed, tracking
is started, and one loop iteration runs 60 seconds after boot. -/
def trackingSession : List Event :=
  [Event.command (envAt 1000) 0 WStype.TEXT "setup_complete:48.2,16.3,3600,3600".toList,
   Event.command (envAt 2000) 0 WStype.TEXT "start_track".toList,
   Event.loopIter (envAt 60000)]

/-! ## Theorems -/

/-! ### Horizon and mode -/

/-- C1 (code defect): a refresh that yields elevation -10 is followed, five
seconds later and before any other refresh, by a call that pulses both axes.
The refreshing call itself returns without a pulse, the next one moves azimuth
to 1 and elevation to -1. -/
theorem horizon_suppression_violated :
    (updateTracking nightSky trackingState (envAt 60000)).targetSunEl = -10 ∧
    (updateTracking nightSky trackingState (envAt 60000)).lastSunUpdate = 60000 ∧
    (updateTracking nightSky trackingState (envAt 60000)).pulsesX = 0 ∧
    (updateTracking nightSky trackingState (envAt 60000)).pulsesY = 0 ∧
    (updateTracking nightSky
      (updateTracking nightSky trackingState (envAt 60000)) (envAt 65000)).lastSunUpdate
        = 60000 ∧
    (updateTracking nightSky
      (updateTracking nightSky trackingState (envAt 60000)) (envAt 65000)).pulsesX = 1 ∧
    (updateTracking nightSky
      (updateTracking nightSky trackingState (envAt 60000)) (envAt 65000)).pulsesY = 1 ∧
    (updateTracking nightSky
      (updateTracking nightSky trackingState (envAt 60000)) (envAt 65000)).currentAzMicrosteps
        = 1 ∧
    (updateTracking nightSky
      (updateTracking nightSky trackingState (envAt 60000)) (envAt 65000)).currentElMicrosteps
        = -1 := by
  decide!

/-- C2 (code defect): the start_track command leaves the two continuous-run
flags exactly as they were, in every state; after X_fwd and Y_rev both axes are
still running once start_track was handled, with tracking switched on. -/
theorem start_track_keeps_running :
    (∀ (P : Platform) (s : State) (e : Env) (num : ℕ),
      (onWebSocketEvent P s e num WStype.TEXT "start_track".toList).motorX_Running
          = s.motorX_Running ∧
      (onWebSocketEvent P s e num WStype.TEXT "start_track".toList).motorY_Running
          = s.motorY_Running) ∧
    (onWebSocketEvent daySky
      (onWebSocketEvent daySky
        (onWebSocketEvent daySky configuredState (envAt 1000) 0 WStype.TEXT "X_fwd".toList)
        (envAt 1100) 0 WStype.TEXT "Y_rev".toList)
      (envAt 1200) 0 WStype.TEXT "start_track".toList).motorX_Running = true ∧
    (onWebSocketEvent daySky
      (onWebSocketEvent daySky
        (onWebSocketEvent daySky configuredState (envAt 1000) 0 WStype.TEXT "X_fwd".toList)
        (envAt 1100) 0 WStype.TEXT "Y_rev".toList)
      (envAt 1200) 0 WStype.TEXT "start_track".toList).motorY_Running = true ∧
    (onWebSocketEvent daySky
      (onWebSocketEvent daySky
        (onWebSocketEvent daySky configuredState (envAt 1000) 0 WStype.TEXT "X_fwd".toList)
        (envAt 1100) 0 WStype.TEXT "Y_rev".toList)
      (envAt 1200) 0 WStype.TEXT "start_track".toList).trackingActive = true := by
  refine ⟨?_, by decide!, by decide!, by decide!⟩
  intro P s e num
  simp [onWebSocketEvent, sendStatus]

/-! ### Frame lemmas for the step decision -/

theorem stepMotor_X (s : State) :
    stepMotor STEP_X s = { s with pulsesX := s.pulsesX + 1 } := by
  simp [stepMotor]

theorem stepMotor_Y (s : State) :
    stepMotor STEP_Y s = { s with pulsesY := s.pulsesY + 1 } := by
  simp [stepMotor, STEP_X, STEP_Y]

theorem digitalWrite_X (b : Bool) (s : State) :
    digitalWrite DIR_X b s = { s with dirX := b } := by
  simp [digitalWrite]

theorem digitalWrite_Y (b : Bool) (s : State) :
    digitalWrite DIR_Y b s = { s with dirY := b } := by
  simp [digitalWrite, DIR_X, DIR_Y]

theorem trackStep_frame (s : State) (e : Env) :
    (trackStep s e).targetSunAz = s.targetSunAz ∧
    (trackStep s e).targetSunEl = s.targetSunEl ∧
    (trackStep s e).microstepsPerDegAz = s.microstepsPerDegAz ∧
    (trackStep s e).microstepsPerDegEl = s.microstepsPerDegEl ∧
    (trackStep s e).trackingActive = s.trackingActive ∧
    (trackStep s e).configSetupDone = s.configSetupDone ∧
    (trackStep s e).lastSunUpdate = s.lastSunUpdate := by
  unfold trackStep
  simp only [stepMotor_X, stepMotor_Y, digitalWrite_X, digitalWrite_Y]
  split_ifs <;> simp

theorem trackStep_idle (s : State) (e : Env)
    (h : usub (u32 e.micros) s.lastTrackStep < TRACK_STEP_INTERVAL_US) :
    trackStep s e = s := by
  unfold trackStep
  simp [h]

theorem trackStep_az (s : State) (e : Env)
    (h : ¬ usub (u32 e.micros) s.lastTrackStep < TRACK_STEP_INTERVAL_US) :
    (trackStep s e).currentAzMicrosteps = s.currentAzMicrosteps +
        stepTowards (degToMicrosteps s.targetSunAz s.microstepsPerDegAz
          - s.currentAzMicrosteps) ∧
    (trackStep s e).pulsesX = s.pulsesX +
        (stepTowards (degToMicrosteps s.targetSunAz s.microstepsPerDegAz
          - s.currentAzMicrosteps)).natAbs := by
  unfold trackStep stepTowards
  rw [if_neg h]
  simp only [stepMotor_X, stepMotor_Y, digitalWrite_X, digitalWrite_Y]
  split_ifs <;> simp

theorem trackStep_el (s : State) (e : Env)
    (h : ¬ usub (u32 e.micros) s.lastTrackStep < TRACK_STEP_INTERVAL_US) :
    (trackStep s e).currentElMicrosteps = s.currentElMicrosteps +
        stepTowards (degToMicrosteps s.targetSunEl s.microstepsPerDegEl
          - s.currentElMicrosteps) ∧
    (trackStep s e).pulsesY = s.pulsesY +
        (stepTowards (degToMicrosteps s.targetSunEl s.microstepsPerDegEl
          - s.currentElMicrosteps)).natAbs := by
  unfold trackStep stepTowards
  rw [if_neg h]
  simp only [stepMotor_X, stepMotor_Y, digitalWrite_X, digitalWrite_Y]
  split_ifs <;> simp

/-- What the step decision does to one axis, once its interval has elapsed. -/
theorem trackStep_axis (a : Axis) (s : State) (e : Env)
    (h : ¬ usub (u32 e.micros) s.lastTrackStep < TRACK_STEP_INTERVAL_US) :
    current a (trackStep s e) =
        current a s + stepTowards (targetMicrosteps a s - current a s) ∧
    pulses a (trackStep s e) =
        pulses a s + (stepTowards (targetMicrosteps a s - current a s)).natAbs := by
  cases a
  · exact trackStep_az s e h
  · exact trackStep_el s e h

theorem targetMicrosteps_trackStep (a : Axis) (s : State) (e : Env) :
    targetMicrosteps a (trackStep s e) = targetMicrosteps a s := by
  obtain ⟨h1, h2, h3, h4, -⟩ := trackStep_frame s e
  cases a <;> simp [targetMicrosteps, h1, h2, h3, h4]

theorem stepTowards_dead (d : ℤ) (h : |d| ≤ 2) : stepTowards d = 0 := by
  unfold stepTowards
  rw [if_neg (not_lt.mpr h)]

theorem trackStep_dead (a : Axis) (s : State) (e : Env)
    (h : |targetMicrosteps a (trackStep s e) - current a s| ≤ 2) :
    current a (trackStep s e) = current a s ∧
    pulses a (trackStep s e) = pulses a s := by
  by_cases hi : usub (u32 e.micros) s.lastTrackStep < TRACK_STEP_INTERVAL_US
  · rw [trackStep_idle s e hi]
    exact ⟨rfl, rfl⟩
  · rw [targetMicrosteps_trackStep] at h
    obtain ⟨h1, h2⟩ := trackStep_axis a s e hi
    rw [h1, h2, stepTowards_dead _ h]
    simp

/-- The possible outcomes of one call of updateTracking. -/
theorem updateTracking_cases (P : Platform) (s : State) (e : Env) :
    updateTracking P s e = s ∨
    updateTracking P s e = { s with lastSunUpdate := u32 e.millis } ∨
    (∃ az el, updateTracking P s e =
      { s with lastSunUpdate := u32 e.millis, targetSunAz := az, targetSunEl := el }) ∨
    (∃ az el, updateTracking P s e = trackStep
      { s with lastSunUpdate := u32 e.millis, targetSunAz := az, targetSunEl := el } e) ∨
    updateTracking P s e = trackStep s e := by
  unfold updateTracking
  by_cases h1 : s.trackingActive = false ∨ s.configSetupDone = false
  · left
    rw [if_pos h1]
  · rw [if_neg h1]
    dsimp only
    by_cases h2 : SUN_UPDATE_INTERVAL_MS ≤ usub (u32 e.millis) s.lastSunUpdate
    · rw [if_pos h2]
      cases hg : getSunPosition P { s with lastSunUpdate := u32 e.millis } e with
      | none => right; left; rfl
      | some p =>
        obtain ⟨az, el⟩ := p
        by_cases h3 : el < 0
        · right; right; left
          exact ⟨az, el, by simp [h3]⟩
        · right; right; right; left
          exact ⟨az, el, by simp [h3]⟩
    · right; right; right; right
      rw [if_neg h2]

/-- C3, counterexample: in the state after boot with tracking on, the target
held (0, 0) gives the target microstep count 0 on both axes, equal to both
counters, so the difference is inside the dead band. The call made 60 seconds
after boot refreshes the target to (100, 30) before its step decision and sends
one pulse on each axis: both counters move to 1. -/
theorem dead_band_counterexample :
    |targetMicrosteps Axis.Azimuth trackingState - current Axis.Azimuth trackingState| ≤ 2 ∧
    |targetMicrosteps Axis.Elevation trackingState
        - current Axis.Elevation trackingState| ≤ 2 ∧
    pulses Axis.Azimuth (updateTracking daySky trackingState (envAt 60000))
        = pulses Axis.Azimuth trackingState + 1 ∧
    pulses Axis.Elevation (updateTracking daySky trackingState (envAt 60000))
        = pulses Axis.Elevation trackingState + 1 ∧
    current Axis.Azimuth (updateTracking daySky trackingState (envAt 60000))
        ≠ current Axis.Azimuth trackingState ∧
    current Axis.Elevation (updateTracking daySky trackingState (envAt 60000))
        ≠ current Axis.Elevation trackingState ∧
    targetMicrosteps Axis.Azimuth (updateTracking daySky trackingState (envAt 60000))
        = 7529 ∧
    targetMicrosteps Axis.Elevation (updateTracking daySky trackingState (envAt 60000))
        = 812 := by
  decide!

/-- C3, amended: when the target microstep count in force at the step decision
(computed from the tracking target held after the call, that is, after the
refresh the call may have made) is within 2 microsteps of an axis counter, one
call of updateTracking leaves that counter unchanged and sends no pulse on that
axis, whatever the other axis does. -/
theorem dead_band (P : Platform) (s : State) (e : Env) (a : Axis)
    (h : |targetMicrosteps a (updateTracking P s e) - current a s| ≤ 2) :
    current a (updateTracking P s e) = current a s ∧
    pulses a (updateTracking P s e) = pulses a s := by
  rcases updateTracking_cases P s e with h1 | h1 | ⟨az, el, h1⟩ | ⟨az, el, h1⟩ | h1
  · rw [h1]
    exact ⟨rfl, rfl⟩
  · rw [h1]
    cases a <;> exact ⟨rfl, rfl⟩
  · rw [h1]
    cases a <;> exact ⟨rfl, rfl⟩
  · rw [h1] at h ⊢
    have := trackStep_dead a _ e h
    cases a <;> exact this
  · rw [h1] at h ⊢
    exact trackStep_dead a s e h

/-- C3 amended, at two concrete calls. A refreshing call: the counter 7528 is
far from the target held before the call (0) and one microstep from the target
the refresh gives (7529), and the azimuth counter stays put. A call without
refresh: the azimuth target 75 is within the dead band of the counter 74, and
the azimuth counter stays put while elevation moves. -/
theorem dead_band_witness :
    (|targetMicrosteps Axis.Azimuth (updateTracking daySky refreshDeadBandState (envAt 60000))
        - current Axis.Azimuth refreshDeadBandState| ≤ 2 ∧
     current Axis.Azimuth (updateTracking daySky refreshDeadBandState (envAt 60000))
        = current Axis.Azimuth refreshDeadBandState ∧
     pulses Axis.Azimuth (updateTracking daySky refreshDeadBandState (envAt 60000))
        = pulses Axis.Azimuth refreshDeadBandState) ∧
    (|targetMicrosteps Axis.Azimuth (updateTracking daySky deadBandState (envAt 5000))
        - current Axis.Azimuth deadBandState| ≤ 2 ∧
     current Axis.Azimuth (updateTracking daySky deadBandState (envAt 5000))
        = current Axis.Azimuth deadBandState ∧
     pulses Axis.Azimuth (updateTracking daySky deadBandState (envAt 5000))
        = pulses Axis.Azimuth deadBandState) :=
  ⟨⟨by decide!,
    dead_band daySky refreshDeadBandState (envAt 60000) Axis.Azimuth (by decide!)⟩,
   ⟨by decide!, dead_band daySky deadBandState (envAt 5000) Axis.Azimuth (by decide!)⟩⟩

/-! ### Convergence -/

theorem travel_step (d : ℤ) (n : ℕ) :
    stepTowards d + Int.sign (d - stepTowards d) *
        max 0 (min (n : ℤ) (|d - stepTowards d| - 2)) =
      Int.sign d * max 0 (min ((n + 1 : ℕ) : ℤ) (|d| - 2)) := by
  unfold stepTowards
  rcases lt_trichotomy d 0 with hd | hd | hd
  · rw [abs_of_neg hd]
    by_cases h2 : 2 < -d
    · rw [if_pos h2, if_neg (by omega)]
      have h3 : d - -1 < 0 := by omega
      rw [abs_of_neg h3, Int.sign_eq_neg_one_of_neg h3, Int.sign_eq_neg_one_of_neg hd]
      push_cast
      omega
    · rw [if_neg h2]
      rw [sub_zero, abs_of_neg hd, Int.sign_eq_neg_one_of_neg hd]
      push_cast
      omega
  · subst hd
    simp
  · rw [abs_of_pos hd]
    by_cases h2 : 2 < d
    · rw [if_pos h2, if_pos hd]
      have h3 : 0 < d - 1 := by omega
      rw [abs_of_pos h3, Int.sign_eq_one_of_pos h3, Int.sign_eq_one_of_pos hd]
      push_cast
      omega
    · rw [if_neg h2]
      rw [sub_zero, abs_of_pos hd, Int.sign_eq_one_of_pos hd]
      push_cast
      omega

theorem pulse_step (d : ℤ) (n : ℕ) :
    ((stepTowards d).natAbs : ℤ) + max 0 (min (n : ℤ) (|d - stepTowards d| - 2)) =
      max 0 (min ((n + 1 : ℕ) : ℤ) (|d| - 2)) := by
  unfold stepTowards
  rcases lt_trichotomy d 0 with hd | hd | hd
  · rw [abs_of_neg hd]
    by_cases h2 : 2 < -d
    · rw [if_pos h2, if_neg (by omega), abs_of_neg (by omega)]
      push_cast
      omega
    · rw [if_neg h2, sub_zero, abs_of_neg hd]
      push_cast
      omega
  · subst hd
    simp
  · rw [abs_of_pos hd]
    by_cases h2 : 2 < d
    · rw [if_pos h2, if_pos hd, abs_of_pos (by omega)]
      push_cast
      omega
    · rw [if_neg h2, sub_zero, abs_of_pos hd]
      push_cast
      omega

/-- The distance left after travelling `max 0 (min n (|d| - 2))` towards the
target. -/
theorem travel_dist (d : ℤ) (k : ℤ) (hk : 0 ≤ k) (hk2 : k ≤ max 0 (|d| - 2)) :
    |d - Int.sign d * k| = |d| - k := by
  rcases lt_trichotomy d 0 with hd | hd | hd
  · rw [abs_of_neg hd] at hk2 ⊢
    rw [Int.sign_eq_neg_one_of_neg hd, abs_of_neg (by omega)]
    omega
  · subst hd
    simp at hk2 ⊢
    omega
  · rw [abs_of_pos hd] at hk2 ⊢
    rw [Int.sign_eq_one_of_pos hd, abs_of_pos (by omega)]
    omega

/-- One call that reaches the step decision with the target unchanged. -/
theorem fixedTargetStep_axis (P : Platform) (s : State) (e : Env) (a : Axis)
    (h : FixedTargetStep P s e) :
    current a (updateTracking P s e) =
        current a s + stepTowards (targetMicrosteps a s - current a s) ∧
    pulses a (updateTracking P s e) =
        pulses a s + (stepTowards (targetMicrosteps a s - current a s)).natAbs ∧
    targetMicrosteps a (updateTracking P s e) = targetMicrosteps a s := by
  obtain ⟨h1, h2, h3, h4⟩ := h
  have key : updateTracking P s e = trackStep s e ∨
      updateTracking P s e = trackStep { s with lastSunUpdate := u32 e.millis } e := by
    unfold updateTracking
    rw [if_neg (by simp [h1, h2])]
    dsimp only
    by_cases hr : SUN_UPDATE_INTERVAL_MS ≤ usub (u32 e.millis) s.lastSunUpdate
    · right
      rw [if_pos hr]
      rcases h4 with h4 | ⟨h4, h5⟩
      · exact absurd hr h4
      · have hg : getSunPosition P { s with lastSunUpdate := u32 e.millis } e
            = some (s.targetSunAz, s.targetSunEl) := h4
        rw [hg]
        simp [h5]
    · left
      rw [if_neg hr]
  rcases key with key | key
  · rw [key, targetMicrosteps_trackStep]
    exact ⟨(trackStep_axis a s e h3).1, (trackStep_axis a s e h3).2, rfl⟩
  · rw [key, targetMicrosteps_trackStep]
    have := trackStep_axis a { s with lastSunUpdate := u32 e.millis } e h3
    cases a <;> exact ⟨this.1, this.2, rfl⟩

/-- C4: over a run of calls that all reach the step decision with the tracking
target unchanged, an axis that starts at difference `d = target - current`
has moved, after `n` calls, by `max 0 (min n (|d| - 2))` microsteps in the
direction of the target, one pulse per microstep. So while `|d| - n` is above 2
each call moves the counter by exactly one microstep towards the target and the
remaining distance is `|d| - n`; from call `|d| - 2` on the distance is 2 and the
counter no longer changes; the counter never passes the target. An axis that
starts inside the dead band never moves. -/
theorem tracking_converges (P : Platform) (a : Axis) (es : List Env) (s : State)
    (h : AllFixedTargetSteps P s es) :
    current a (runTracking P s es) = current a s +
        Int.sign (targetMicrosteps a s - current a s) *
          max 0 (min (es.length : ℤ) (|targetMicrosteps a s - current a s| - 2)) ∧
    |targetMicrosteps a s - current a (runTracking P s es)| =
        |targetMicrosteps a s - current a s| -
          max 0 (min (es.length : ℤ) (|targetMicrosteps a s - current a s| - 2)) ∧
    (pulses a (runTracking P s es) : ℤ) = pulses a s +
        max 0 (min (es.length : ℤ) (|targetMicrosteps a s - current a s| - 2)) ∧
    targetMicrosteps a (runTracking P s es) = targetMicrosteps a s := by
  have main : ∀ (es : List Env) (s : State), AllFixedTargetSteps P s es →
      current a (runTracking P s es) = current a s +
          Int.sign (targetMicrosteps a s - current a s) *
            max 0 (min (es.length : ℤ) (|targetMicrosteps a s - current a s| - 2)) ∧
      (pulses a (runTracking P s es) : ℤ) = pulses a s +
          max 0 (min (es.length : ℤ) (|targetMicrosteps a s - current a s| - 2)) ∧
      targetMicrosteps a (runTracking P s es) = targetMicrosteps a s := by
    intro es
    induction es with
    | nil =>
      intro s _
      simp [runTracking]
    | cons e es ih =>
      intro s hs
      obtain ⟨h1, h2⟩ := hs
      obtain ⟨c1, p1, t1⟩ := fixedTargetStep_axis P s e a h1
      obtain ⟨c2, p2, t2⟩ := ih (updateTracking P s e) h2
      have hd : targetMicrosteps a s - (current a s +
          stepTowards (targetMicrosteps a s - current a s)) =
          (targetMicrosteps a s - current a s) -
            stepTowards (targetMicrosteps a s - current a s) := by ring
      have ts := travel_step (targetMicrosteps a s - current a s) es.length
      refine ⟨?_, ?_, ?_⟩
      · show current a (runTracking P (updateTracking P s e) es) = _
        rw [c2, t1, c1, hd, add_assoc, ts, List.length_cons]
      · show (pulses a (runTracking P (updateTracking P s e) es) : ℤ) = _
        rw [p2, t1, c1, hd, p1, List.length_cons, ← pulse_step]
        push_cast
        ring
      · show targetMicrosteps a (runTracking P (updateTracking P s e) es) = _
        rw [t2, t1]
  obtain ⟨c, p, t⟩ := main es s h
  refine ⟨c, ?_, p, t⟩
  rw [c]
  have := travel_dist (targetMicrosteps a s - current a s)
    (max 0 (min (es.length : ℤ) (|targetMicrosteps a s - current a s| - 2)))
    (le_max_left _ _) (by omega)
  rw [← this]
  congr 1
  ring

/-- C4, at a concrete run: from the counter 70 with the target at 75, four calls
five seconds apart move azimuth by 3 microsteps, to 73, and then stop. -/
theorem tracking_converges_witness :
    AllFixedTargetSteps daySky approachState
      [envAt 5000, envAt 10000, envAt 15000, envAt 20000] ∧
    current Axis.Azimuth (runTracking daySky approachState
      [envAt 5000, envAt 10000, envAt 15000, envAt 20000]) = 73 :=
  ⟨by decide!,
   ((tracking_converges daySky Axis.Azimuth
      [envAt 5000, envAt 10000, envAt 15000, envAt 20000] approachState
      (by decide!)).1).trans (by decide!)⟩

/-! ### Target conversion -/

/-- The cast to `long` is the truncation toward zero. -/
theorem toLong_trunc (x : ℚ) :
    |((toLong x : ℤ) : ℚ)| ≤ |x| ∧ |x - (toLong x : ℤ)| < 1 ∧ 0 ≤ x * (toLong x : ℤ) := by
  unfold toLong
  by_cases h : 0 ≤ x
  · rw [if_pos h]
    have h1 : (0 : ℚ) ≤ ((⌊x⌋ : ℤ) : ℚ) := by exact_mod_cast Int.floor_nonneg.mpr h
    have h2 : ((⌊x⌋ : ℤ) : ℚ) ≤ x := Int.floor_le x
    have h3 : x < ((⌊x⌋ : ℤ) : ℚ) + 1 := Int.lt_floor_add_one x
    refine ⟨?_, ?_, mul_nonneg h h1⟩
    · rw [abs_of_nonneg h1, abs_of_nonneg h]
      exact h2
    · rw [abs_of_nonneg (by linarith)]
      linarith
  · rw [if_neg h]
    have hx : x < 0 := not_le.mp h
    have h1 : ((⌈x⌉ : ℤ) : ℚ) ≤ 0 := by
      exact_mod_cast Int.ceil_le.mpr (by exact_mod_cast hx.le)
    have h2 : x ≤ ((⌈x⌉ : ℤ) : ℚ) := Int.le_ceil x
    have h3 : ((⌈x⌉ : ℤ) : ℚ) < x + 1 := Int.ceil_lt_add_one x
    refine ⟨?_, ?_, mul_nonneg_of_nonpos_of_nonpos hx.le h1⟩
    · rw [abs_of_nonpos h1, abs_of_neg hx]
      linarith
    · rw [abs_of_nonpos (by linarith)]
      linarith

/-- C5, counterexample: with 2.75 microsteps per degree and the target at
1 degree, the target microstep count that the step decision uses is 2 while
round(1 * 2.75) is 3; from the counter 0 the call sends no pulse, although the
rounded target is outside the dead band. -/
theorem target_is_not_rounded_counterexample :
    targetMicrosteps Axis.Azimuth truncState ≠
      round (truncState.targetSunAz * truncState.microstepsPerDegAz) ∧
    targetMicrosteps Axis.Azimuth truncState = 2 ∧
    round (truncState.targetSunAz * truncState.microstepsPerDegAz) = 3 ∧
    current Axis.Azimuth truncState = 0 ∧
    current Axis.Azimuth (updateTracking daySky truncState (envAt 5000)) = 0 ∧
    pulses Axis.Azimuth (updateTracking daySky truncState (envAt 5000)) = 0 := by
  decide!

/-- C5, amended: the target microstep count is the product of the target angle
and the calibration value, computed in `double`, truncated toward zero: its
magnitude does not exceed that of the product, it differs from the product by
less than 1 and it has the sign of the product. In the scenario of the
specification the target is 12177, and one call from 12000 sets the direction
pin forward, sends one pulse and moves the counter to 12001. -/
theorem target_is_truncated :
    (∀ deg mpd : ℚ,
      |((degToMicrosteps deg mpd : ℤ) : ℚ)| ≤ |toDouble (deg * mpd)| ∧
      |toDouble (deg * mpd) - (degToMicrosteps deg mpd : ℤ)| < 1 ∧
      0 ≤ toDouble (deg * mpd) * (degToMicrosteps deg mpd : ℤ)) ∧
    targetMicrosteps Axis.Azimuth scenarioState = 12177 ∧
    (updateTracking daySky scenarioState (envAt 5000)).currentAzMicrosteps = 12001 ∧
    (updateTracking daySky scenarioState (envAt 5000)).dirX = true ∧
    (updateTracking daySky scenarioState (envAt 5000)).pulsesX = 1 := by
  refine ⟨fun deg mpd => toLong_trunc _, by decide!, by decide!, by decide!, by decide!⟩

/-! ### Rounding error of the floating-point model -/

theorem pow2_eq (k : ℤ) : pow2 k = (2 : ℚ) ^ k := by
  unfold pow2
  by_cases h : 0 ≤ k
  · rw [if_pos h]
    push_cast
    rw [← zpow_natCast, Int.toNat_of_nonneg h]
  · rw [if_neg h]
    push_cast
    rw [← zpow_natCast, Int.toNat_of_nonneg (by omega), zpow_neg, one_div, inv_inv]

theorem log2Fuel_spec : ∀ (fuel n : ℕ), n ≤ fuel → n ≠ 0 →
    2 ^ log2Fuel fuel n ≤ n ∧ n < 2 ^ (log2Fuel fuel n + 1) := by
  intro fuel
  induction fuel with
  | zero =>
    intro n h1 h2
    omega
  | succ fuel ih =>
    intro n h1 h2
    unfold log2Fuel
    by_cases h : 2 ≤ n
    · rw [if_pos h]
      obtain ⟨a, b⟩ := ih (n / 2) (by omega) (by omega)
      constructor
      · rw [pow_succ]
        omega
      · rw [pow_succ] at b ⊢
        omega
    · rw [if_neg h]
      constructor <;> simp <;> omega

theorem natLog2_spec (n : ℕ) (h : n ≠ 0) :
    2 ^ natLog2 n ≤ n ∧ n < 2 ^ (natLog2 n + 1) :=
  log2Fuel_spec n n le_rfl h

theorem ilog2_le (x : ℚ) (hx : x ≠ 0) : (2 : ℚ) ^ ilog2 x ≤ |x| := by
  unfold ilog2
  dsimp only
  by_cases h : pow2 ((natLog2 x.num.natAbs : ℤ) - (natLog2 x.den : ℤ)) ≤ |x|
  · rw [if_pos h, ← pow2_eq]
    exact h
  · rw [if_neg h]
    have hn : x.num.natAbs ≠ 0 := by
      simpa using hx
    obtain ⟨n1, -⟩ := natLog2_spec x.num.natAbs hn
    obtain ⟨-, d2⟩ := natLog2_spec x.den x.den_nz
    have hden : (0 : ℚ) < x.den := by exact_mod_cast x.den_pos
    have habs : |x| = (x.num.natAbs : ℚ) / (x.den : ℚ) := by
      conv_lhs => rw [← Rat.num_div_den x]
      rw [abs_div, abs_of_pos hden]
      congr 1
      rw [Nat.cast_natAbs, Int.cast_abs]
    rw [habs, le_div_iff₀ hden]
    have n1q : (2 : ℚ) ^ (natLog2 x.num.natAbs) ≤ x.num.natAbs := by exact_mod_cast n1
    have d2q : (x.den : ℚ) ≤ 2 ^ (natLog2 x.den + 1) := by exact_mod_cast d2.le
    calc (2 : ℚ) ^ ((natLog2 x.num.natAbs : ℤ) - (natLog2 x.den : ℤ) - 1) * (x.den : ℚ)
        ≤ (2 : ℚ) ^ ((natLog2 x.num.natAbs : ℤ) - (natLog2 x.den : ℤ) - 1)
            * 2 ^ (natLog2 x.den + 1) := by
          apply mul_le_mul_of_nonneg_left d2q
          positivity
      _ = (2 : ℚ) ^ (natLog2 x.num.natAbs) := by
          rw [← zpow_natCast, ← zpow_natCast, ← zpow_add₀ (by norm_num)]
          congr 1
          push_cast
          ring
      _ ≤ x.num.natAbs := n1q
theorem lt_ilog2 (x : ℚ) (hx : x ≠ 0) : |x| < (2 : ℚ) ^ (ilog2 x + 1) := by
  unfold ilog2
  dsimp only
  by_cases h : pow2 ((natLog2 x.num.natAbs : ℤ) - (natLog2 x.den : ℤ)) ≤ |x|
  · rw [if_pos h]
    have hn : x.num.natAbs ≠ 0 := by
      simpa using hx
    obtain ⟨-, n2⟩ := natLog2_spec x.num.natAbs hn
    obtain ⟨d1, -⟩ := natLog2_spec x.den x.den_nz
    have hden : (0 : ℚ) < x.den := by exact_mod_cast x.den_pos
    have habs : |x| = (x.num.natAbs : ℚ) / (x.den : ℚ) := by
      conv_lhs => rw [← Rat.num_div_den x]
      rw [abs_div, abs_of_pos hden]
      congr 1
      rw [Nat.cast_natAbs, Int.cast_abs]
    rw [habs, div_lt_iff₀ hden]
    have n2q : (x.num.natAbs : ℚ) < 2 ^ (natLog2 x.num.natAbs + 1) := by exact_mod_cast n2
    have d1q : (2 : ℚ) ^ (natLog2 x.den) ≤ x.den := by exact_mod_cast d1
    calc (x.num.natAbs : ℚ) < 2 ^ (natLog2 x.num.natAbs + 1) := n2q
      _ = (2 : ℚ) ^ ((natLog2 x.num.natAbs : ℤ) - (natLog2 x.den : ℤ) + 1)
            * 2 ^ (natLog2 x.den) := by
          rw [← zpow_natCast, ← zpow_natCast, ← zpow_add₀ (by norm_num)]
          congr 1
          push_cast
          ring
      _ ≤ (2 : ℚ) ^ ((natLog2 x.num.natAbs : ℤ) - (natLog2 x.den : ℤ) + 1)
            * (x.den : ℚ) := by
          apply mul_le_mul_of_nonneg_left d1q
          positivity
  · rw [if_neg h, sub_add_cancel, ← pow2_eq]
    exact not_le.mp h

theorem roundNearestEven_err (y : ℚ) : |((roundNearestEven y : ℤ) : ℚ) - y| ≤ 1 / 2 := by
  unfold roundNearestEven
  dsimp only
  have h1 : ((⌊y⌋ : ℤ) : ℚ) ≤ y := Int.floor_le y
  have h2 : y < ((⌊y⌋ : ℤ) : ℚ) + 1 := Int.lt_floor_add_one y
  rw [abs_le]
  split_ifs with a b c
  · constructor <;> linarith
  · push_cast
    constructor <;> linarith
  · constructor <;> linarith
  · push_cast
    constructor <;> linarith

theorem roundNearestEven_int (n : ℤ) : roundNearestEven (n : ℚ) = n := by
  unfold roundNearestEven
  simp

theorem roundToPrec_err (p : ℕ) (x : ℚ) : |roundToPrec p x - x| ≤ |x| / 2 ^ p := by
  unfold roundToPrec
  by_cases hx : x = 0
  · rw [if_pos hx, hx]
    simp
  · rw [if_neg hx]
    dsimp only
    rw [pow2_eq]
    set q : ℚ := (2 : ℚ) ^ (ilog2 x - (p : ℤ) + 1) with hq
    have qpos : 0 < q := by positivity
    have e1 : ((roundNearestEven (x / q) : ℤ) : ℚ) * q - x =
        (((roundNearestEven (x / q) : ℤ) : ℚ) - x / q) * q := by
      field_simp
    rw [e1, abs_mul, abs_of_pos qpos]
    have e2 := roundNearestEven_err (x / q)
    have e3 : q / 2 = (2 : ℚ) ^ ilog2 x / 2 ^ p := by
      rw [hq, zpow_add₀ (by norm_num), zpow_sub₀ (by norm_num), zpow_natCast]
      norm_num
    calc |((roundNearestEven (x / q) : ℤ) : ℚ) - x / q| * q ≤ 1 / 2 * q :=
          mul_le_mul_of_nonneg_right e2 qpos.le
      _ = (2 : ℚ) ^ ilog2 x / 2 ^ p := by rw [← e3]; ring
      _ ≤ |x| / 2 ^ p := by
          apply div_le_div_of_nonneg_right (ilog2_le x hx)
          positivity

theorem roundToPrec_int (p : ℕ) (m : ℤ) (h : |m| < 2 ^ p) :
    roundToPrec p (m : ℚ) = m := by
  unfold roundToPrec
  by_cases hx : (m : ℚ) = 0
  · rw [if_pos hx, hx]
  · rw [if_neg hx]
    dsimp only
    rw [pow2_eq]
    have hl := ilog2_le (m : ℚ) hx
    have hm : |(m : ℚ)| < 2 ^ p := by exact_mod_cast h
    have hlt : (2 : ℚ) ^ ilog2 (m : ℚ) < 2 ^ (p : ℤ) := by
      rw [zpow_natCast]
      exact lt_of_le_of_lt hl hm
    have he : ilog2 (m : ℚ) < (p : ℤ) := (zpow_lt_zpow_iff_right₀ (by norm_num)).mp hlt
    obtain ⟨k, hk⟩ : ∃ k : ℕ, ilog2 (m : ℚ) - (p : ℤ) + 1 = -(k : ℤ) :=
      ⟨((p : ℤ) - 1 - ilog2 (m : ℚ)).toNat, by omega⟩
    rw [hk, zpow_neg, zpow_natCast]
    have e1 : (m : ℚ) / ((2 : ℚ) ^ k)⁻¹ = ((m * 2 ^ k : ℤ) : ℚ) := by
      push_cast
      field_simp
    rw [e1, roundNearestEven_int]
    push_cast
    field_simp

/-! ### Round trip of the coordinate transform -/

/-- The double product of the round trip stays strictly within 1 of `m`. -/
theorem round_trip_product (mpd : ℚ) (m : ℤ) (hmpd : 0 < mpd) (hm : |m| < 2 ^ 24) :
    |toDouble (microstepsToDeg m mpd * mpd) - m| < 1 := by
  unfold microstepsToDeg toFloat toDouble
  rw [roundToPrec_int 24 m hm]
  have hmq : |(m : ℚ)| ≤ 2 ^ 24 - 1 := by
    have : |m| ≤ 2 ^ 24 - 1 := by omega
    exact_mod_cast this
  have e1 := roundToPrec_err 24 ((m : ℚ) / mpd)
  have e2 := roundToPrec_err 53 (roundToPrec 24 ((m : ℚ) / mpd) * mpd)
  set deg : ℚ := roundToPrec 24 ((m : ℚ) / mpd) with hdeg
  set prod : ℚ := roundToPrec 53 (deg * mpd) with hprod
  have z1 : |deg * mpd - m| ≤ |(m : ℚ)| / 2 ^ 24 := by
    have : deg * mpd - m = (deg - (m : ℚ) / mpd) * mpd := by
      field_simp
    rw [this, abs_mul, abs_of_pos hmpd]
    calc |deg - (m : ℚ) / mpd| * mpd ≤ |(m : ℚ) / mpd| / 2 ^ 24 * mpd :=
          mul_le_mul_of_nonneg_right e1 hmpd.le
      _ = |(m : ℚ)| / 2 ^ 24 := by
          rw [abs_div, abs_of_pos hmpd]
          field_simp
          ring
  have z2 : |deg * mpd - m| ≤ (2 ^ 24 - 1) / 2 ^ 24 :=
    z1.trans (div_le_div_of_nonneg_right hmq (by positivity))
  have z3 : |deg * mpd| ≤ 2 ^ 24 := by
    have : deg * mpd = (deg * mpd - m) + m := by ring
    rw [this]
    refine (abs_add _ _).trans ?_
    have : ((2 : ℚ) ^ 24 - 1) / 2 ^ 24 ≤ 1 := by norm_num
    linarith
  have z4 : |prod - deg * mpd| ≤ 2 ^ 24 / 2 ^ 53 :=
    e2.trans (div_le_div_of_nonneg_right z3 (by positivity))
  have : prod - m = (prod - deg * mpd) + (deg * mpd - m) := by ring
  rw [this]
  refine lt_of_le_of_lt (abs_add _ _) ?_
  have : ((2 : ℚ) ^ 24) / 2 ^ 53 + (2 ^ 24 - 1) / 2 ^ 24 < 1 := by norm_num
  linarith

/-- C6, counterexample: with the default elevation calibration (about 27.09
microsteps per degree, positive) the microstep count 1 becomes a `float` degree
value whose product with the calibration is below 1, and converting it back
gives 0, not 1. The same happens when the product is rounded to `float` instead
of `double`. With the default azimuth calibration the count 15 comes back
as 14. -/
theorem round_trip_counterexample :
    0 < (initialState emptyPrefs).microstepsPerDegEl ∧
    degToMicrosteps (microstepsToDeg 1 (initialState emptyPrefs).microstepsPerDegEl)
      (initialState emptyPrefs).microstepsPerDegEl ≠ 1 ∧
    degToMicrosteps (microstepsToDeg 1 (initialState emptyPrefs).microstepsPerDegEl)
      (initialState emptyPrefs).microstepsPerDegEl = 0 ∧
    toLong (toFloat (microstepsToDeg 1 (initialState emptyPrefs).microstepsPerDegEl
      * (initialState emptyPrefs).microstepsPerDegEl)) = 0 ∧
    0 < (initialState emptyPrefs).microstepsPerDegAz ∧
    degToMicrosteps (microstepsToDeg 15 (initialState emptyPrefs).microstepsPerDegAz)
      (initialState emptyPrefs).microstepsPerDegAz = 14 := by
  decide!

/-- C6, amended: for a positive calibration value and a microstep count `m`
below 2^24 in magnitude, converting `m` to degrees and back yields `m` or the
count next to `m` on the side of zero: the result is within 1 of `m` and not
larger than `m` in magnitude. -/
theorem round_trip_within_one (mpd : ℚ) (m : ℤ) (hmpd : 0 < mpd) (hm : |m| < 2 ^ 24) :
    |degToMicrosteps (microstepsToDeg m mpd) mpd - m| ≤ 1 ∧
    |degToMicrosteps (microstepsToDeg m mpd) mpd| ≤ |m| := by
  have hp := round_trip_product mpd m hmpd hm
  unfold degToMicrosteps
  obtain ⟨t1, t2, t3⟩ := toLong_trunc (toDouble (microstepsToDeg m mpd * mpd))
  set x : ℚ := toDouble (microstepsToDeg m mpd * mpd) with hx
  set r : ℤ := toLong x with hr
  rw [abs_lt] at hp t2
  rw [abs_le] at t1
  obtain ⟨p1, p2⟩ := hp
  obtain ⟨u1, u2⟩ := t2
  obtain ⟨v1, v2⟩ := t1
  rcases lt_trichotomy m 0 with hneg | hz | hpos
  · have hmq : (m : ℚ) ≤ -1 := by exact_mod_cast (show m ≤ -1 by omega)
    have xneg : x < 0 := by linarith
    have rq : (r : ℚ) ≤ 0 := by
      by_contra hc
      push_neg at hc
      have := mul_neg_of_neg_of_pos xneg hc
      linarith
    rw [abs_of_neg xneg] at v1 v2
    have a1 : (m : ℚ) - 1 < r := by linarith
    have a2 : (r : ℚ) < m + 2 := by linarith
    have b0 : r ≤ 0 := by exact_mod_cast rq
    have b1 : m - 1 < r := by exact_mod_cast a1
    have b2 : r < m + 2 := by exact_mod_cast a2
    rw [abs_of_nonpos b0, abs_of_neg hneg, abs_le]
    omega
  · subst hz
    have a1 : (-1 : ℚ) < r := by
      rcases abs_cases x with ⟨h, -⟩ | ⟨h, -⟩ <;> rw [h] at v1 <;> push_cast at p1 p2 <;> linarith
    have a2 : (r : ℚ) < 1 := by
      rcases abs_cases x with ⟨h, -⟩ | ⟨h, -⟩ <;> rw [h] at v2 <;> push_cast at p1 p2 <;> linarith
    have b1 : -1 < r := by exact_mod_cast a1
    have b2 : r < 1 := by exact_mod_cast a2
    have : r = 0 := by omega
    rw [this]
    simp
  · have hmq : (1 : ℚ) ≤ m := by exact_mod_cast (show 1 ≤ m by omega)
    have xpos : 0 < x := by linarith
    have rq : (0 : ℚ) ≤ r := by
      by_contra hc
      push_neg at hc
      have := mul_neg_of_pos_of_neg xpos hc
      linarith
    rw [abs_of_pos xpos] at v1 v2
    have a1 : (r : ℚ) < m + 1 := by linarith
    have a2 : (m : ℚ) - 2 < r := by linarith
    have b0 : 0 ≤ r := by exact_mod_cast rq
    have b1 : r < m + 1 := by exact_mod_cast a1
    have b2 : m - 2 < r := by exact_mod_cast a2
    rw [abs_of_nonneg b0, abs_of_pos hpos, abs_le]
    omega

/-- C6 amended, at the default elevation calibration and the count 1. -/
theorem round_trip_within_one_witness :
    0 < (initialState emptyPrefs).microstepsPerDegEl ∧ |(1 : ℤ)| < 2 ^ 24 ∧
    |degToMicrosteps (microstepsToDeg 1 (initialState emptyPrefs).microstepsPerDegEl)
      (initialState emptyPrefs).microstepsPerDegEl - 1| ≤ 1 ∧
    |degToMicrosteps (microstepsToDeg 1 (initialState emptyPrefs).microstepsPerDegEl)
      (initialState emptyPrefs).microstepsPerDegEl| ≤ |(1 : ℤ)| :=
  ⟨by decide!, by decide,
   round_trip_within_one (initialState emptyPrefs).microstepsPerDegEl 1
     (by decide!) (by decide)⟩

/-! ### Continuous stepping -/

/-- C7, counterexample: after X_fwd the azimuth axis runs forward; the next
updateSteppers call fires one pulse on it and records its time, and the azimuth
microstep counter is still 0, not 1. -/
theorem jog_leaves_counter_counterexample :
    (onWebSocketEvent daySky configuredState (envAt 1000) 0 WStype.TEXT
      "X_fwd".toList).motorX_Running = true ∧
    (onWebSocketEvent daySky configuredState (envAt 1000) 0 WStype.TEXT
      "X_fwd".toList).dirX = true ∧
    (onWebSocketEvent daySky configuredState (envAt 1000) 0 WStype.TEXT
      "X_fwd".toList).currentAzMicrosteps = 0 ∧
    (updateSteppers (onWebSocketEvent daySky configuredState (envAt 1000) 0 WStype.TEXT
      "X_fwd".toList) (envAt 1001)).pulsesX = 1 ∧
    (updateSteppers (onWebSocketEvent daySky configuredState (envAt 1000) 0 WStype.TEXT
      "X_fwd".toList) (envAt 1001)).lastStepX = 1001000 ∧
    (updateSteppers (onWebSocketEvent daySky configuredState (envAt 1000) 0 WStype.TEXT
      "X_fwd".toList) (envAt 1001)).currentAzMicrosteps ≠ 0 + 1 := by
  decide!

/-- C7, amended: updateSteppers never changes a microstep counter, a stored
degree value or a direction pin. On each axis it sends exactly one pulse and
records the time of the pulse when the axis is running and the step interval has
elapsed, and otherwise sends none and keeps the recorded time. -/
theorem updateSteppers_frame (s : State) (e : Env) :
    (updateSteppers s e).currentAzMicrosteps = s.currentAzMicrosteps ∧
    (updateSteppers s e).currentElMicrosteps = s.currentElMicrosteps ∧
    (updateSteppers s e).currentAzDeg = s.currentAzDeg ∧
    (updateSteppers s e).currentElDeg = s.currentElDeg ∧
    (updateSteppers s e).dirX = s.dirX ∧
    (updateSteppers s e).dirY = s.dirY ∧
    (updateSteppers s e).pulsesX = s.pulsesX +
      (if s.motorX_Running = true ∧ s.stepInterval ≤ usub (u32 e.micros) s.lastStepX
        then 1 else 0) ∧
    (updateSteppers s e).lastStepX =
      (if s.motorX_Running = true ∧ s.stepInterval ≤ usub (u32 e.micros) s.lastStepX
        then u32 e.micros else s.lastStepX) ∧
    (updateSteppers s e).pulsesY = s.pulsesY +
      (if s.motorY_Running = true ∧ s.stepInterval ≤ usub (u32 e.micros) s.lastStepY
        then 1 else 0) ∧
    (updateSteppers s e).lastStepY =
      (if s.motorY_Running = true ∧ s.stepInterval ≤ usub (u32 e.micros) s.lastStepY
        then u32 e.micros else s.lastStepY) := by
  unfold updateSteppers
  simp only [stepMotor_X, stepMotor_Y]
  by_cases hx : s.motorX_Running = true ∧ s.stepInterval ≤ usub (u32 e.micros) s.lastStepX
  · by_cases hy : s.motorY_Running = true ∧
        s.stepInterval ≤ usub (u32 e.micros) s.lastStepY
    · simp [hx, hy]
    · simp [hx, hy]
  · by_cases hy : s.motorY_Running = true ∧
        s.stepInterval ≤ usub (u32 e.micros) s.lastStepY
    · simp [hx, hy]
    · simp [hx, hy]

/-! ### Forced refresh -/

/-- C8 (code defect): start_track handled 30 seconds after boot sets
lastSunUpdate to 0; the next updateTracking call, 35 seconds after boot, has the
setup done and a synchronised clock (the solar calculator would answer
(100, 30)), and it does not refresh: lastSunUpdate is still 0 and the target is
still (0, 0). The refresh only happens once millis() has reached 60000. -/
theorem start_track_refresh_not_forced :
    (onWebSocketEvent daySky configuredState (envAt 30000) 0 WStype.TEXT
      "start_track".toList).trackingActive = true ∧
    (onWebSocketEvent daySky configuredState (envAt 30000) 0 WStype.TEXT
      "start_track".toList).configSetupDone = true ∧
    (onWebSocketEvent daySky configuredState (envAt 30000) 0 WStype.TEXT
      "start_track".toList).lastSunUpdate = 0 ∧
    getSunPosition daySky (onWebSocketEvent daySky configuredState (envAt 30000) 0
      WStype.TEXT "start_track".toList) (envAt 35000) = some (100, 30) ∧
    (updateTracking daySky (onWebSocketEvent daySky configuredState (envAt 30000) 0
      WStype.TEXT "start_track".toList) (envAt 35000)).lastSunUpdate = 0 ∧
    (updateTracking daySky (onWebSocketEvent daySky configuredState (envAt 30000) 0
      WStype.TEXT "start_track".toList) (envAt 35000)).targetSunAz = 0 ∧
    (updateTracking daySky (onWebSocketEvent daySky configuredState (envAt 30000) 0
      WStype.TEXT "start_track".toList) (envAt 35000)).targetSunEl = 0 ∧
    (updateTracking daySky (onWebSocketEvent daySky configuredState (envAt 30000) 0
      WStype.TEXT "start_track".toList) (envAt 60000)).targetSunAz = 100 := by
  decide!

/-! ### The setup command -/

/-- A positive result of `indexOf` is the position of an occurrence at or after
the start index. -/
theorem indexOf_pos (msg : List Char) (ch : Char) (f : ℤ) (h : 0 < indexOf msg ch f) :
    ∃ i : ℕ, indexOf msg ch f = (i : ℤ) ∧ (f % 2 ^ 32).toNat ≤ i ∧ msg[i]? = some ch := by
  unfold indexOf at h ⊢
  dsimp only at h ⊢
  by_cases h1 : msg.length ≤ (f % 2 ^ 32).toNat
  · rw [if_pos h1] at h
    omega
  · rw [if_neg h1] at h ⊢
    by_cases h2 : List.indexOf ch (List.drop (f % 2 ^ 32).toNat msg) <
        (List.drop (f % 2 ^ 32).toNat msg).length
    · rw [if_pos h2]
      refine ⟨(f % 2 ^ 32).toNat + List.indexOf ch (List.drop (f % 2 ^ 32).toNat msg),
        rfl, Nat.le_add_right _ _, ?_⟩
      rw [← List.getElem?_drop, List.getElem?_eq_some]
      exact ⟨h2, List.indexOf_get h2⟩
    · rw [if_neg h2] at h
      omega

/-- An occurrence at position `i` adds one to the count of every suffix that
starts at or before `i`. -/
theorem count_drop_of_occurrence (l : List Char) (c : Char) (k i : ℕ) (hk : k ≤ i)
    (h : l[i]? = some c) :
    1 + (l.drop (i + 1)).count c ≤ (l.drop k).count c := by
  have e1 : l.drop k = (l.drop k).take (i + 1 - k) ++ (l.drop k).drop (i + 1 - k) :=
    (List.take_append_drop _ _).symm
  have e2 : (l.drop k).drop (i + 1 - k) = l.drop (i + 1) := by
    rw [List.drop_drop]
    congr 1
    omega
  have e3 : c ∈ (l.drop k).take (i + 1 - k) := by
    rw [List.mem_iff_getElem?]
    refine ⟨i - k, ?_⟩
    rw [List.getElem?_take, if_pos (by omega), List.getElem?_drop]
    rw [show k + (i - k) = i by omega]
    exact h
  have e4 : 0 < ((l.drop k).take (i + 1 - k)).count c := List.count_pos_iff.mpr e3
  rw [e1, List.count_append, e2]
  omega

/-- With fewer than three commas after the prefix, the three searches of the
setup branch cannot all succeed. -/
theorem setup_separators (msg : List Char) (hlen : msg.length < 2 ^ 31)
    (hc : (msg.drop 15).count comma < 3) :
    ¬ (0 < indexOf msg comma 15 ∧
       0 < indexOf msg comma (indexOf msg comma 15 + 1) ∧
       0 < indexOf msg comma (indexOf msg comma (indexOf msg comma 15 + 1) + 1)) := by
  rintro ⟨h1, h2, h3⟩
  obtain ⟨i1, e1, b1, g1⟩ := indexOf_pos msg comma 15 h1
  rw [e1] at h2 h3
  obtain ⟨i2, e2, b2, g2⟩ := indexOf_pos msg comma (i1 + 1) h2
  rw [e2] at h3
  obtain ⟨i3, e3, b3, g3⟩ := indexOf_pos msg comma (i2 + 1) h3
  have l1 : i1 < msg.length := (List.getElem?_eq_some.mp g1).1
  have l2 : i2 < msg.length := (List.getElem?_eq_some.mp g2).1
  have c1 := count_drop_of_occurrence msg comma 15 i1 (by omega) g1
  have c2 := count_drop_of_occurrence msg comma (i1 + 1) i2 (by omega) g2
  have c3 := count_drop_of_occurrence msg comma (i2 + 1) i3 (by omega) g3
  omega

/-- A message that starts with the setup prefix is none of the fixed commands. -/
theorem ne_of_startsWith (msg cmd pre : List Char) (h : startsWith msg pre = true)
    (hcmd : startsWith cmd pre = false) : ¬ msg = cmd := by
  intro heq
  rw [heq, hcmd] at h
  exact Bool.false_ne_true h

/-- C9: a message that starts with "setup_complete:" and has fewer than three
commas after the prefix (fewer than four comma-separated fields) leaves the
whole state unchanged: calibration, persisted store, tracking mode, running
flags, clock parameters, and the list of replies sent (no status reply). The
message is any text that fits the `int` indices of the Arduino String. -/
theorem malformed_setup_ignored (P : Platform) (s : State) (e : Env) (num : ℕ)
    (msg : List Char) (hlen : msg.length < 2 ^ 31)
    (hpre : startsWith msg "setup_complete:".toList = true)
    (hc : (msg.drop 15).count comma < 3) :
    onWebSocketEvent P s e num WStype.TEXT msg = s := by
  unfold onWebSocketEvent
  rw [if_pos rfl,
    if_neg (ne_of_startsWith msg _ _ hpre (by decide)),
    if_neg (ne_of_startsWith msg _ _ hpre (by decide)),
    if_neg (ne_of_startsWith msg _ _ hpre (by decide)),
    if_neg (ne_of_startsWith msg _ _ hpre (by decide)),
    if_neg (ne_of_startsWith msg _ _ hpre (by decide)),
    if_neg (ne_of_startsWith msg _ _ hpre (by decide)),
    if_neg (ne_of_startsWith msg _ _ hpre (by decide)),
    if_neg (ne_of_startsWith msg _ _ hpre (by decide)),
    if_neg (ne_of_startsWith msg _ _ hpre (by decide)),
    if_pos hpre]
  dsimp only
  rw [if_neg (setup_separators msg hlen hc)]

/-- C9, at a concrete message: "setup_complete:48.2,16.3" has one comma and is
ignored. -/
theorem malformed_setup_ignored_witness :
    ("setup_complete:48.2,16.3".toList).length < 2 ^ 31 ∧
    startsWith "setup_complete:48.2,16.3".toList "setup_complete:".toList = true ∧
    (("setup_complete:48.2,16.3".toList).drop 15).count comma < 3 ∧
    onWebSocketEvent daySky configuredState (envAt 1000) 0 WStype.TEXT
      "setup_complete:48.2,16.3".toList = configuredState :=
  ⟨by decide, by decide, by decide,
   malformed_setup_ignored daySky configuredState (envAt 1000) 0
     "setup_complete:48.2,16.3".toList (by decide) (by decide) (by decide)⟩

/-! ### Reset -/

/-- C10: after reset_setup, loadConfig yields configured = false and the
latitude, longitude, both offsets and both calibration values that loadConfig
would have yielded before the reset; reset_setup leaves tracking off and both
axes not running. -/
theorem reset_setup_semantics (P : Platform) (s : State) (e : Env) (num : ℕ) :
    (loadConfig (onWebSocketEvent P s e num WStype.TEXT
      "reset_setup".toList)).configSetupDone = false ∧
    (loadConfig (onWebSocketEvent P s e num WStype.TEXT
      "reset_setup".toList)).configLat = (loadConfig s).configLat ∧
    (loadConfig (onWebSocketEvent P s e num WStype.TEXT
      "reset_setup".toList)).configLon = (loadConfig s).configLon ∧
    (loadConfig (onWebSocketEvent P s e num WStype.TEXT
      "reset_setup".toList)).configGmtOffsetSec = (loadConfig s).configGmtOffsetSec ∧
    (loadConfig (onWebSocketEvent P s e num WStype.TEXT
      "reset_setup".toList)).configDstOffsetSec = (loadConfig s).configDstOffsetSec ∧
    (loadConfig (onWebSocketEvent P s e num WStype.TEXT
      "reset_setup".toList)).microstepsPerDegAz = (loadConfig s).microstepsPerDegAz ∧
    (loadConfig (onWebSocketEvent P s e num WStype.TEXT
      "reset_setup".toList)).microstepsPerDegEl = (loadConfig s).microstepsPerDegEl ∧
    (onWebSocketEvent P s e num WStype.TEXT "reset_setup".toList).trackingActive = false ∧
    (onWebSocketEvent P s e num WStype.TEXT "reset_setup".toList).motorX_Running = false ∧
    (onWebSocketEvent P s e num WStype.TEXT "reset_setup".toList).motorY_Running = false ∧
    (onWebSocketEvent P s e num WStype.TEXT "reset_setup".toList).configSetupDone = false := by
  have h : onWebSocketEvent P s e num WStype.TEXT "reset_setup".toList =
      sendStatus P { resetSetup s with trackingActive := false, motorX_Running := false,
                                       motorY_Running := false } e num := by
    simp [onWebSocketEvent, startsWith]
  rw [h]
  simp [loadConfig, sendStatus, resetSetup]

/-! ### Reported mirror angles -/

theorem microstepsToDeg_zero (mpd : ℚ) : microstepsToDeg 0 mpd = 0 := by
  simp [microstepsToDeg, toFloat, roundToPrec]

theorem synced_setup (p : Prefs) : Synced (setup p) := by
  unfold Synced setup initNTP loadConfig initialState
  dsimp only
  rw [microstepsToDeg_zero, microstepsToDeg_zero]
  exact ⟨rfl, rfl⟩

theorem synced_trackStep (s : State) (e : Env) (h : Synced s) : Synced (trackStep s e) := by
  by_cases hi : usub (u32 e.micros) s.lastTrackStep < TRACK_STEP_INTERVAL_US
  · rw [trackStep_idle s e hi]
    exact h
  · unfold trackStep
    rw [if_neg hi]
    exact ⟨rfl, rfl⟩

theorem synced_updateTracking (P : Platform) (s : State) (e : Env) (h : Synced s) :
    Synced (updateTracking P s e) := by
  rcases updateTracking_cases P s e with h1 | h1 | ⟨az, el, h1⟩ | ⟨az, el, h1⟩ | h1
  · rw [h1]
    exact h
  · rw [h1]
    exact h
  · rw [h1]
    exact h
  · rw [h1]
    exact synced_trackStep _ e h
  · rw [h1]
    exact synced_trackStep s e h

theorem synced_updateSteppers (s : State) (e : Env) (h : Synced s) :
    Synced (updateSteppers s e) := by
  unfold updateSteppers
  simp only [stepMotor_X, stepMotor_Y]
  split_ifs <;> exact h

theorem synced_sendStatus (P : Platform) (s : State) (e : Env) (num : ℕ) (h : Synced s) :
    Synced (sendStatus P s e num) := h

theorem synced_ite (c : Prop) [Decidable c] (a b : State) (ha : Synced a)
    (hb : Synced b) : Synced (if c then a else b) := by
  split_ifs
  · exact ha
  · exact hb

theorem synced_onWebSocketEvent (P : Platform) (s : State) (e : Env) (num : ℕ)
    (type : WStype) (msg : List Char) (h : Synced s) :
    Synced (onWebSocketEvent P s e num type msg) := by
  unfold onWebSocketEvent
  simp only [digitalWrite_X, digitalWrite_Y]
  repeat (first | exact h | apply synced_ite)

theorem synced_loop (P : Platform) (s : State) (e : Env) (h : Synced s) :
    Synced (loop P s e) := by
  have h1 : Synced (updateSteppers s e) := synced_updateSteppers s e h
  unfold loop
  dsimp only
  split_ifs
  · exact synced_updateTracking P _ e h1
  · exact h1

theorem synced_applyEvent (P : Platform) (s : State) (ev : Event) (h : Synced s) :
    Synced (applyEvent P s ev) := by
  cases ev with
  | command e num type msg => exact synced_onWebSocketEvent P s e num type msg h
  | tick e => exact synced_updateSteppers s e h
  | track e => exact synced_updateTracking P s e h
  | loopIter e => exact synced_loop P s e h

theorem synced_runEvents (P : Platform) (evs : List Event) :
    ∀ s : State, Synced s → Synced (runEvents P s evs) := by
  induction evs with
  | nil =>
    intro s h
    exact h
  | cons ev evs ih =>
    intro s h
    exact ih _ (synced_applyEvent P s ev h)

theorem lastReply_sendStatus (P : Platform) (s : State) (e : Env) (num : ℕ) :
    (lastReply (sendStatus P s e num)).map Status.mirrorAz = some s.currentAzDeg ∧
    (lastReply (sendStatus P s e num)).map Status.mirrorEl = some s.currentElDeg := by
  simp [lastReply, sendStatus]

/-- C11: in every state reached from boot (the initial globals, loadConfig and
initNTP once, then any sequence of handled WebSocket events, updateSteppers
calls, updateTracking calls and loop iterations), the mirrorAz and mirrorEl
values of the reply that sendStatus sends, and of the reply to get_status, are
`(float)currentAzMicrosteps / microstepsPerDegAz` and
`(float)currentElMicrosteps / microstepsPerDegEl` computed from the counters
and calibration of that state; these are the stored degree values, and each is
within one `float` rounding of the exact quotient. -/
theorem reported_angles_derived (P : Platform) (p : Prefs) (evs : List Event)
    (e : Env) (num : ℕ) :
    (lastReply (sendStatus P (runEvents P (setup p) evs) e num)).map Status.mirrorAz =
      some (microstepsToDeg (runEvents P (setup p) evs).currentAzMicrosteps
        (runEvents P (setup p) evs).microstepsPerDegAz) ∧
    (lastReply (sendStatus P (runEvents P (setup p) evs) e num)).map Status.mirrorEl =
      some (microstepsToDeg (runEvents P (setup p) evs).currentElMicrosteps
        (runEvents P (setup p) evs).microstepsPerDegEl) ∧
    (lastReply (onWebSocketEvent P (runEvents P (setup p) evs) e num WStype.TEXT
        "get_status".toList)).map Status.mirrorAz =
      some (microstepsToDeg (runEvents P (setup p) evs).currentAzMicrosteps
        (runEvents P (setup p) evs).microstepsPerDegAz) ∧
    (lastReply (onWebSocketEvent P (runEvents P (setup p) evs) e num WStype.TEXT
        "get_status".toList)).map Status.mirrorEl =
      some (microstepsToDeg (runEvents P (setup p) evs).currentElMicrosteps
        (runEvents P (setup p) evs).microstepsPerDegEl) ∧
    (runEvents P (setup p) evs).currentAzDeg =
      microstepsToDeg (runEvents P (setup p) evs).currentAzMicrosteps
        (runEvents P (setup p) evs).microstepsPerDegAz ∧
    (runEvents P (setup p) evs).currentElDeg =
      microstepsToDeg (runEvents P (setup p) evs).currentElMicrosteps
        (runEvents P (setup p) evs).microstepsPerDegEl ∧
    |(runEvents P (setup p) evs).currentAzDeg -
        toFloat ((runEvents P (setup p) evs).currentAzMicrosteps : ℚ) /
          (runEvents P (setup p) evs).microstepsPerDegAz| ≤
      |toFloat ((runEvents P (setup p) evs).currentAzMicrosteps : ℚ) /
          (runEvents P (setup p) evs).microstepsPerDegAz| / 2 ^ 24 ∧
    |(runEvents P (setup p) evs).currentElDeg -
        toFloat ((runEvents P (setup p) evs).currentElMicrosteps : ℚ) /
          (runEvents P (setup p) evs).microstepsPerDegEl| ≤
      |toFloat ((runEvents P (setup p) evs).currentElMicrosteps : ℚ) /
          (runEvents P (setup p) evs).microstepsPerDegEl| / 2 ^ 24 := by
  obtain ⟨hAz, hEl⟩ := synced_runEvents P evs (setup p) (synced_setup p)
  obtain ⟨rAz, rEl⟩ := lastReply_sendStatus P (runEvents P (setup p) evs) e num
  have hq : onWebSocketEvent P (runEvents P (setup p) evs) e num WStype.TEXT
      "get_status".toList = sendStatus P (runEvents P (setup p) evs) e num := by
    simp [onWebSocketEvent]
  refine ⟨?_, ?_, ?_, ?_, hAz, hEl, ?_, ?_⟩
  · rw [rAz, hAz]
  · rw [rEl, hEl]
  · rw [hq, rAz, hAz]
  · rw [hq, rEl, hEl]
  · rw [hAz]
    exact roundToPrec_err 24 _
  · rw [hEl]
    exact roundToPrec_err 24 _

/-- The invariant at work: after the session `trackingSession` under a day sky
both counters are at 1, and the reply to get_status carries the `float`
quotients 1 / 75.294... and 1 / 27.089... as mirror angles. -/
theorem reported_angles_scenario :
    (runEvents daySky (setup emptyPrefs) trackingSession).currentAzMicrosteps = 1 ∧
    (runEvents daySky (setup emptyPrefs) trackingSession).currentElMicrosteps = 1 ∧
    (lastReply (onWebSocketEvent daySky (runEvents daySky (setup emptyPrefs) trackingSession)
        (envAt 61000) 7 WStype.TEXT "get_status".toList)).map Status.mirrorAz =
      some (14260633 / 1073741824) ∧
    (lastReply (onWebSocketEvent daySky (runEvents daySky (setup emptyPrefs) trackingSession)
        (envAt 61000) 7 WStype.TEXT "get_status".toList)).map Status.mirrorEl =
      some (microstepsToDeg 1 (toFloat DEFAULT_MICROSTEPS_PER_DEG_EL)) := by
  decide!

end Helio
